import Mathlib

/-!
Shallow embedding of `src/assembler.rs` from the lyth-codegen repository:
a direct x86-64 machine-code emitter.

Modelling conventions:
* bytes and machine integers are `Nat`; every mask / truncation written in
  the source (`& 0xFF`, `& 0x7`, the `as u8` casts realised by `& 0xFF`)
  appears verbatim, and the one place where `u32` arithmetic can wrap
  (`stack_size + 15` inside `enter`) carries an explicit `% 2 ^ 32`;
* a Rust `panic!` is `Except.error st`, where `st` is the assembler state at
  the moment of the panic, so theorems can state exactly which bytes were in
  the buffer when an abort happened;
* `Vec<u8>` is `List Nat`; `Vec::push` is append of a singleton; index
  assignment `self.code[i] = v` is `storeByte`, which errors out of bounds
  exactly where the Rust indexing panics.
-/

deriving instance DecidableEq for Except

namespace Lyth

/-- Source `pub type RegisterId = u8;` — the register ids actually used are 0–15. -/
abbrev RegisterId := Nat

/-- The `Registers` enum, `#[repr(u8)]` with discriminants 0–15. -/
inductive Registers where
  | rax
  | rcx
  | rdx
  | rbx
  | rsp
  | rbp
  | rsi
  | rdi
  | r8
  | r9
  | r10
  | r11
  | r12
  | r13
  | r14
  | r15
deriving DecidableEq

/-- Source `impl From<Registers> for RegisterId`: the variant's discriminant. -/
def Registers.toRegisterId : Registers → RegisterId
  | .rax => 0
  | .rcx => 1
  | .rdx => 2
  | .rbx => 3
  | .rsp => 4
  | .rbp => 5
  | .rsi => 6
  | .rdi => 7
  | .r8 => 8
  | .r9 => 9
  | .r10 => 10
  | .r11 => 11
  | .r12 => 12
  | .r13 => 13
  | .r14 => 14
  | .r15 => 15

/-- The `Operand` enum: a register, a `[base + offset]` memory location, or
an immediate of a fixed width.  Structural (derived) equality, as in the
source's `#[derive(Eq, PartialEq)]`. -/
inductive Operand where
  | register (id : RegisterId)
  | memoryAndOffset (base : RegisterId) (offset : Nat)
  | imm64 (value : Nat)
  | imm32 (value : Nat)
  | imm8 (value : Nat)
deriving DecidableEq

/-- Source `Operand::register` constructor helper. -/
def Operand.registerOf (r : Registers) : Operand :=
  .register r.toRegisterId

/-- Source struct: a public assembler owning `code: Vec<u8>`. -/
structure Assembler where
  code : List Nat
deriving DecidableEq

/-- Source `Assembler::new`. -/
def Assembler.new : Assembler := ⟨[]⟩

/-- Source `Assembler::finalize` — consumes the assembler, returning the code. -/
def Assembler.finalize (a : Assembler) : List Nat := a.code

/-- Source `emit8`: `self.code.push(byte)`. -/
def Assembler.emit8 (a : Assembler) (byte : Nat) : Assembler :=
  ⟨a.code ++ [byte]⟩

/-- Source `emit32`: push a dword in little-endian order; the `as u8` casts are the
`&&& 0xFF` masks. -/
def Assembler.emit32 (a : Assembler) (dword : Nat) : Assembler :=
  ((((a.emit8 ((dword >>> 0) &&& 0xFF)).emit8
      ((dword >>> 8) &&& 0xFF)).emit8
      ((dword >>> 16) &&& 0xFF)).emit8
      ((dword >>> 24) &&& 0xFF))

/-- Source `emit64`: push a qword in little-endian order. -/
def Assembler.emit64 (a : Assembler) (qword : Nat) : Assembler :=
  ((((((((a.emit8 ((qword >>> 0) &&& 0xFF)).emit8
      ((qword >>> 8) &&& 0xFF)).emit8
      ((qword >>> 16) &&& 0xFF)).emit8
      ((qword >>> 24) &&& 0xFF)).emit8
      ((qword >>> 32) &&& 0xFF)).emit8
      ((qword >>> 40) &&& 0xFF)).emit8
      ((qword >>> 48) &&& 0xFF)).emit8
      ((qword >>> 56) &&& 0xFF))

/-- Source `emit_rex_prefix` (the source's `decide!` macro is a plain
if-then-else): `0x48 | decide!(reg2 >= 8, 1 << 2, 0) | decide!(reg1 >= 8, 1 << 0, 0)`. -/
def Assembler.emitRex (a : Assembler) (reg1 reg2 : RegisterId) : Assembler :=
  a.emit8 (0x48
    ||| (if reg2 ≥ 8 then 1 <<< 2 else 0)
    ||| (if reg1 ≥ 8 then 1 <<< 0 else 0))

/-- Source `Assembler::mov`.  The early `if dst == src { return; }` comes first;
each `panic!` arm of the source is an `.error` carrying the entry state
(nothing has been emitted when the panic fires). -/
def Assembler.mov (a : Assembler) (dst src : Operand) : Except Assembler Assembler :=
  if dst = src then .ok a
  else
    match dst with
    | .register dstReg =>
      match src with
      | .register srcReg =>
          .ok (((a.emitRex dstReg srcReg).emit8 0x89).emit8
            (0xC0 ||| ((srcReg &&& 0x7) <<< 3) ||| (dstReg &&& 0x7)))
      | .memoryAndOffset srcReg srcOffset =>
          .ok ((((a.emitRex srcReg dstReg).emit8 0x8B).emit8
            (0x80 ||| ((dstReg &&& 0x7) <<< 3) ||| (srcReg &&& 0x7))).emit32 srcOffset)
      | .imm64 imm64 =>
          .ok (((a.emitRex dstReg 0).emit8
            (0xB8 ||| ((dstReg &&& 0x7) <<< 3))).emit64 imm64)
      | .imm32 _ => .error a
      | .imm8 _ => .error a
    | .memoryAndOffset dstReg dstOffset =>
      match src with
      | .register srcReg =>
          .ok ((((a.emitRex dstReg srcReg).emit8 0x89).emit8
            (0x80 ||| ((srcReg &&& 7) <<< 3) ||| (dstReg &&& 7))).emit32 dstOffset)
      | .imm64 _ => .error a
      | .imm32 _ => .error a
      | .memoryAndOffset _ _ => .error a
      | .imm8 _ => .error a
    | .imm64 _ => .error a
    | .imm32 _ => .error a
    | .imm8 _ => .error a

/-- Source `Assembler::add`. -/
def Assembler.add (a : Assembler) (dst src : Operand) : Except Assembler Assembler :=
  match dst with
  | .register dstReg =>
    match src with
    | .register srcReg =>
        .ok (((a.emitRex dstReg srcReg).emit8 0x01).emit8
          (0xC0 ||| ((srcReg &&& 0x7) <<< 3) ||| (dstReg &&& 0x7)))
    | .memoryAndOffset srcReg srcOffset =>
        .ok ((((a.emitRex srcReg dstReg).emit8 0x03).emit8
          (0x80 ||| ((dstReg &&& 0x7) <<< 3) ||| (srcReg &&& 0x7))).emit32 srcOffset)
    | .imm32 imm32 =>
        .ok ((((a.emitRex dstReg 0).emit8 0x81).emit8
          (0xC0 ||| (dstReg &&& 0x7))).emit32 imm32)
    | .imm64 _ => .error a
    | .imm8 _ => .error a
  | .memoryAndOffset _ _ => .error a
  | .imm64 _ => .error a
  | .imm32 _ => .error a
  | .imm8 _ => .error a

/-- Source `Assembler::sub`. -/
def Assembler.sub (a : Assembler) (dst src : Operand) : Except Assembler Assembler :=
  match dst with
  | .register dstReg =>
    match src with
    | .register srcReg =>
        .ok (((a.emitRex dstReg srcReg).emit8 0x29).emit8
          (0xC0 ||| ((srcReg &&& 0x7) <<< 3) ||| (dstReg &&& 0x7)))
    | .memoryAndOffset srcReg srcOffset =>
        .ok ((((a.emitRex srcReg dstReg).emit8 0x2B).emit8
          (0x80 ||| ((dstReg &&& 0x7) <<< 3) ||| (srcReg &&& 0x7))).emit32 srcOffset)
    | .imm32 imm32 =>
        .ok ((((a.emitRex dstReg 0).emit8 0x81).emit8
          (0xE8 ||| (dstReg &&& 0x7))).emit32 imm32)
    | .imm64 _ => .error a
    | .imm8 _ => .error a
  | .memoryAndOffset _ _ => .error a
  | .imm64 _ => .error a
  | .imm32 _ => .error a
  | .imm8 _ => .error a

/-- Source `Assembler::jump_near`: emits the short (0xEB) or near (0xE9) opcode,
records `self.code.len()` right after the opcode byte, emits the
displacement placeholder and returns the recorded position. -/
def Assembler.jump_near (a : Assembler) (dst : Operand) :
    Except Assembler (Assembler × Nat) :=
  match dst with
  | .imm8 imm8 =>
      let a1 := a.emit8 0xEB
      let pos := a1.code.length
      .ok (a1.emit8 imm8, pos)
  | .imm32 imm32 =>
      let a1 := a.emit8 0xE9
      let pos := a1.code.length
      .ok (a1.emit32 imm32, pos)
  | .register _ => .error a
  | .memoryAndOffset _ _ => .error a
  | .imm64 _ => .error a

/-- Source `Assembler::push`. -/
def Assembler.push (a : Assembler) (src : Operand) : Except Assembler Assembler :=
  match src with
  | .register reg =>
      .ok ((a.emitRex reg 0).emit8 (0x50 ||| (reg &&& 0x7)))
  | .imm32 imm32 =>
      .ok ((a.emit8 0x68).emit32 imm32)
  | .memoryAndOffset _ _ => .error a
  | .imm64 _ => .error a
  | .imm8 _ => .error a

/-- Source `Assembler::pop`. -/
def Assembler.pop (a : Assembler) (dst : Operand) : Except Assembler Assembler :=
  match dst with
  | .register reg =>
      .ok ((a.emitRex reg 0).emit8 (0x58 ||| (reg &&& 0x7)))
  | .memoryAndOffset _ _ => .error a
  | .imm64 _ => .error a
  | .imm32 _ => .error a
  | .imm8 _ => .error a

/-- Source `Assembler::enter`: push rbp; mov rbp, rsp; and for a non-zero size,
sub rsp by the size aligned up with `(stack_size + 15) & !15` in `u32`
arithmetic (`!15u32 = 0xFFFFFFF0`; the addition wraps modulo `2 ^ 32`). -/
def Assembler.enter (a : Assembler) (stackSize : Nat) : Except Assembler Assembler := do
  let a ← a.push (.register Registers.rbp.toRegisterId)
  let a ← a.mov (.register Registers.rbp.toRegisterId) (.register Registers.rsp.toRegisterId)
  if stackSize > 0 then
    let stackSize := ((stackSize + 15) % 4294967296) &&& 0xFFFFFFF0
    a.sub (.register Registers.rsp.toRegisterId) (.imm32 stackSize)
  else
    return a

/-- Source `Assembler::leave`: the single byte 0xC9. -/
def Assembler.leave (a : Assembler) : Assembler := a.emit8 0xC9

/-- Source `Assembler::ret`: the single byte 0xC3. -/
def Assembler.ret (a : Assembler) : Assembler := a.emit8 0xC3

/-- The index assignment `self.code[i] = v`: panics (`.error`, carrying the
state reached so far) when `i` is out of bounds. -/
def Assembler.storeByte (a : Assembler) (i v : Nat) : Except Assembler Assembler :=
  if i < a.code.length then .ok ⟨a.code.set i v⟩ else .error a

/-- Source `Assembler::patch32`: four in-place byte stores of the little-endian
digits of `value` at `offset + 0 .. offset + 3`. -/
def Assembler.patch32 (a : Assembler) (value offset : Nat) : Except Assembler Assembler := do
  let a ← a.storeByte (offset + 0) ((value >>> 0) &&& 0xFF)
  let a ← a.storeByte (offset + 1) ((value >>> 8) &&& 0xFF)
  let a ← a.storeByte (offset + 2) ((value >>> 16) &&& 0xFF)
  let a ← a.storeByte (offset + 3) ((value >>> 24) &&& 0xFF)
  return a

/-- The 4-byte little-endian image of a value, exactly as `emit32` lays it
down. -/
def le32 (v : Nat) : List Nat :=
  [(v >>> 0) &&& 0xFF, (v >>> 8) &&& 0xFF, (v >>> 16) &&& 0xFF, (v >>> 24) &&& 0xFF]

/-- The 8-byte little-endian image of a value, exactly as `emit64` lays it
down. -/
def le64 (v : Nat) : List Nat :=
  [(v >>> 0) &&& 0xFF, (v >>> 8) &&& 0xFF, (v >>> 16) &&& 0xFF, (v >>> 24) &&& 0xFF,
   (v >>> 32) &&& 0xFF, (v >>> 40) &&& 0xFF, (v >>> 48) &&& 0xFF, (v >>> 56) &&& 0xFF]

/-- The spec's REX formula, written from the spec's words for comparison
with the code: `0x48 | (0x4 if r2 ≥ 8 else 0) | (0x1 if r1 ≥ 8 else 0)`,
where `r1` plays the ModRM r/m role and `r2` the reg role. -/
def rexFormulaSpec (r1 r2 : RegisterId) : Nat :=
  0x48 ||| (if r2 ≥ 8 then 0x4 else 0) ||| (if r1 ≥ 8 then 0x1 else 0)

/-- One call to a public encoding method of the assembler, with its
arguments. -/
inductive Op where
  | mov (dst src : Operand)
  | add (dst src : Operand)
  | sub (dst src : Operand)
  | jump_near (dst : Operand)
  | enter (stackSize : Nat)
  | leave
  | patch32 (value offset : Nat)
  | ret
  | push (src : Operand)
  | pop (dst : Operand)
deriving DecidableEq

/-- Dispatch one public encoding call; the optional `Nat` is the returned
offset of `jump_near`. -/
def Assembler.runOp (a : Assembler) : Op → Except Assembler (Assembler × Option Nat)
  | .mov dst src => (a.mov dst src).map (fun a1 => (a1, none))
  | .add dst src => (a.add dst src).map (fun a1 => (a1, none))
  | .sub dst src => (a.sub dst src).map (fun a1 => (a1, none))
  | .jump_near dst => (a.jump_near dst).map (fun p => (p.1, some p.2))
  | .enter stackSize => (a.enter stackSize).map (fun a1 => (a1, none))
  | .leave => .ok (a.leave, none)
  | .patch32 value offset => (a.patch32 value offset).map (fun a1 => (a1, none))
  | .ret => .ok (a.ret, none)
  | .push src => (a.push src).map (fun a1 => (a1, none))
  | .pop dst => (a.pop dst).map (fun a1 => (a1, none))

/-- Source `b.code` extends `a.code` on the right. -/
def Exts (a b : Assembler) : Prop := ∃ t, b.code = a.code ++ t

/-! ### Helper lemmas about the emission primitives -/

@[simp] lemma emit8_def (a : Assembler) (b : Nat) :
    a.emit8 b = ⟨a.code ++ [b]⟩ := rfl

@[simp] lemma emit32_def (a : Assembler) (d : Nat) :
    a.emit32 d = ⟨a.code ++ le32 d⟩ := by
  simp [Assembler.emit32, Assembler.emit8, le32]

@[simp] lemma emit64_def (a : Assembler) (q : Nat) :
    a.emit64 q = ⟨a.code ++ le64 q⟩ := by
  simp [Assembler.emit64, Assembler.emit8, le64]

@[simp] lemma emitRex_def (a : Assembler) (r1 r2 : RegisterId) :
    a.emitRex r1 r2 = ⟨a.code ++ [rexFormulaSpec r1 r2]⟩ := rfl

lemma exts_rfl {a : Assembler} : Exts a a := ⟨[], by simp⟩

lemma exts_emit8 {a b : Assembler} {x : Nat} (h : Exts a b) : Exts a (b.emit8 x) := by
  obtain ⟨t, ht⟩ := h
  exact ⟨t ++ [x], by simp [ht]⟩

lemma exts_emit32 {a b : Assembler} {x : Nat} (h : Exts a b) : Exts a (b.emit32 x) := by
  obtain ⟨t, ht⟩ := h
  exact ⟨t ++ le32 x, by simp [ht]⟩

lemma exts_emit64 {a b : Assembler} {x : Nat} (h : Exts a b) : Exts a (b.emit64 x) := by
  obtain ⟨t, ht⟩ := h
  exact ⟨t ++ le64 x, by simp [ht]⟩

lemma exts_rex {a b : Assembler} {r1 r2 : RegisterId} (h : Exts a b) :
    Exts a (b.emitRex r1 r2) := by
  obtain ⟨t, ht⟩ := h
  exact ⟨t ++ [rexFormulaSpec r1 r2], by simp [ht]⟩

lemma exts_trans {a b c : Assembler} (h1 : Exts a b) (h2 : Exts b c) : Exts a c := by
  obtain ⟨t1, ht1⟩ := h1
  obtain ⟨t2, ht2⟩ := h2
  exact ⟨t1 ++ t2, by simp [ht2, ht1]⟩

/-! ### Shape lemmas: what each method arm evaluates to -/

lemma mov_same (a : Assembler) (x : Operand) : a.mov x x = .ok a := by
  simp [Assembler.mov]

lemma mov_extends {a a' : Assembler} {d s : Operand} (h : a.mov d s = .ok a') :
    Exts a a' := by
  by_cases he : d = s
  · subst he
    rw [mov_same] at h
    cases h
    exact exts_rfl
  · cases d <;> cases s <;>
      simp only [Assembler.mov, if_neg he, Except.ok.injEq, reduceCtorEq, reduceIte] at h <;>
      first
        | exact h.elim
        | (subst h
           repeat
             first
               | exact exts_rfl
               | apply exts_emit8
               | apply exts_emit32
               | apply exts_emit64
               | apply exts_rex)

lemma add_extends {a a' : Assembler} {d s : Operand} (h : a.add d s = .ok a') :
    Exts a a' := by
  cases d <;> cases s <;>
    simp only [Assembler.add, Except.ok.injEq, reduceCtorEq] at h <;>
    first
      | exact h.elim
      | (subst h
         repeat
           first
             | exact exts_rfl
             | apply exts_emit8
             | apply exts_emit32
             | apply exts_emit64
             | apply exts_rex)

lemma sub_extends {a a' : Assembler} {d s : Operand} (h : a.sub d s = .ok a') :
    Exts a a' := by
  cases d <;> cases s <;>
    simp only [Assembler.sub, Except.ok.injEq, reduceCtorEq] at h <;>
    first
      | exact h.elim
      | (subst h
         repeat
           first
             | exact exts_rfl
             | apply exts_emit8
             | apply exts_emit32
             | apply exts_emit64
             | apply exts_rex)

lemma push_extends {a a' : Assembler} {s : Operand} (h : a.push s = .ok a') :
    Exts a a' := by
  cases s <;>
    simp only [Assembler.push, Except.ok.injEq, reduceCtorEq] at h <;>
    first
      | exact h.elim
      | (subst h
         repeat
           first
             | exact exts_rfl
             | apply exts_emit8
             | apply exts_emit32
             | apply exts_emit64
             | apply exts_rex)

lemma pop_extends {a a' : Assembler} {d : Operand} (h : a.pop d = .ok a') :
    Exts a a' := by
  cases d <;>
    simp only [Assembler.pop, Except.ok.injEq, reduceCtorEq] at h <;>
    first
      | exact h.elim
      | (subst h
         repeat
           first
             | exact exts_rfl
             | apply exts_emit8
             | apply exts_emit32
             | apply exts_emit64
             | apply exts_rex)

lemma jump_near_extends {a a' : Assembler} {d : Operand} {p : Nat}
    (h : a.jump_near d = .ok (a', p)) : Exts a a' := by
  cases d <;>
    simp only [Assembler.jump_near, Except.ok.injEq, Prod.mk.injEq, reduceCtorEq] at h <;>
    first
      | exact h.elim
      | (obtain ⟨h1, -⟩ := h
         subst h1
         repeat
           first
             | exact exts_rfl
             | apply exts_emit8
             | apply exts_emit32
             | apply exts_emit64
             | apply exts_rex)

lemma mov_rr {a : Assembler} {d s : RegisterId} (hne : d ≠ s) :
    a.mov (.register d) (.register s) =
      .ok ⟨a.code ++ [rexFormulaSpec d s, 0x89,
        0xC0 ||| ((s &&& 0x7) <<< 3) ||| (d &&& 0x7)]⟩ := by
  simp [Assembler.mov, hne]

lemma mov_rm (a : Assembler) (d b off : Nat) :
    a.mov (.register d) (.memoryAndOffset b off) =
      .ok ⟨a.code ++ [rexFormulaSpec b d, 0x8B,
        0x80 ||| ((d &&& 0x7) <<< 3) ||| (b &&& 0x7)] ++ le32 off⟩ := by
  simp [Assembler.mov]

lemma mov_ri64 (a : Assembler) (d v : Nat) :
    a.mov (.register d) (.imm64 v) =
      .ok ⟨a.code ++ [rexFormulaSpec d 0, 0xB8 ||| ((d &&& 0x7) <<< 3)] ++ le64 v⟩ := by
  simp [Assembler.mov]

lemma mov_mr (a : Assembler) (b off s : Nat) :
    a.mov (.memoryAndOffset b off) (.register s) =
      .ok ⟨a.code ++ [rexFormulaSpec b s, 0x89,
        0x80 ||| ((s &&& 7) <<< 3) ||| (b &&& 7)] ++ le32 off⟩ := by
  simp [Assembler.mov]

lemma add_rr (a : Assembler) (d s : RegisterId) :
    a.add (.register d) (.register s) =
      .ok ⟨a.code ++ [rexFormulaSpec d s, 0x01,
        0xC0 ||| ((s &&& 0x7) <<< 3) ||| (d &&& 0x7)]⟩ := by
  simp [Assembler.add]

lemma add_rm (a : Assembler) (d b off : Nat) :
    a.add (.register d) (.memoryAndOffset b off) =
      .ok ⟨a.code ++ [rexFormulaSpec b d, 0x03,
        0x80 ||| ((d &&& 0x7) <<< 3) ||| (b &&& 0x7)] ++ le32 off⟩ := by
  simp [Assembler.add]

lemma add_ri32 (a : Assembler) (d v : Nat) :
    a.add (.register d) (.imm32 v) =
      .ok ⟨a.code ++ [rexFormulaSpec d 0, 0x81, 0xC0 ||| (d &&& 0x7)] ++ le32 v⟩ := by
  simp [Assembler.add]

lemma sub_rr (a : Assembler) (d s : RegisterId) :
    a.sub (.register d) (.register s) =
      .ok ⟨a.code ++ [rexFormulaSpec d s, 0x29,
        0xC0 ||| ((s &&& 0x7) <<< 3) ||| (d &&& 0x7)]⟩ := by
  simp [Assembler.sub]

lemma sub_rm (a : Assembler) (d b off : Nat) :
    a.sub (.register d) (.memoryAndOffset b off) =
      .ok ⟨a.code ++ [rexFormulaSpec b d, 0x2B,
        0x80 ||| ((d &&& 0x7) <<< 3) ||| (b &&& 0x7)] ++ le32 off⟩ := by
  simp [Assembler.sub]

lemma sub_ri32 (a : Assembler) (d v : Nat) :
    a.sub (.register d) (.imm32 v) =
      .ok ⟨a.code ++ [rexFormulaSpec d 0, 0x81, 0xE8 ||| (d &&& 0x7)] ++ le32 v⟩ := by
  simp [Assembler.sub]

lemma push_r (a : Assembler) (r : RegisterId) :
    a.push (.register r) =
      .ok ⟨a.code ++ [rexFormulaSpec r 0, 0x50 ||| (r &&& 0x7)]⟩ := by
  simp [Assembler.push]

lemma pop_r (a : Assembler) (r : RegisterId) :
    a.pop (.register r) =
      .ok ⟨a.code ++ [rexFormulaSpec r 0, 0x58 ||| (r &&& 0x7)]⟩ := by
  simp [Assembler.pop]

/-! ### Shape lemmas for `storeByte` / `patch32` -/

lemma storeByte_lt {a : Assembler} {i : Nat} (h : i < a.code.length) (v : Nat) :
    a.storeByte i v = .ok ⟨a.code.set i v⟩ := by
  simp [Assembler.storeByte, h]

lemma storeByte_ge {a : Assembler} {i : Nat} (h : ¬ i < a.code.length) (v : Nat) :
    a.storeByte i v = .error a := by
  simp [Assembler.storeByte, h]

lemma patch32_ok {a : Assembler} {off : Nat} (h : off + 3 < a.code.length) (v : Nat) :
    a.patch32 v off =
      .ok ⟨(((a.code.set (off + 0) ((v >>> 0) &&& 0xFF)).set
          (off + 1) ((v >>> 8) &&& 0xFF)).set
          (off + 2) ((v >>> 16) &&& 0xFF)).set
          (off + 3) ((v >>> 24) &&& 0xFF)⟩ := by
  have h0 : off + 0 < a.code.length := by omega
  have h1 : off + 1 < a.code.length := by omega
  have h2 : off + 2 < a.code.length := by omega
  rw [Assembler.patch32]
  rw [storeByte_lt h0]
  simp only [bind, Except.bind]
  rw [storeByte_lt (by simpa using h1)]
  simp only [bind, Except.bind]
  rw [storeByte_lt (by simpa using h2)]
  simp only [bind, Except.bind]
  rw [storeByte_lt (by simpa using h)]
  rfl

lemma patch32_oob {a : Assembler} {off : Nat} (h : a.code.length ≤ off) (v : Nat) :
    a.patch32 v off = .error a := by
  rw [Assembler.patch32]
  rw [storeByte_ge (by omega)]
  rfl

lemma patch32_ok_shape {a a' : Assembler} {v off : Nat} (h : a.patch32 v off = .ok a') :
    off + 3 < a.code.length ∧
    a' = ⟨(((a.code.set (off + 0) ((v >>> 0) &&& 0xFF)).set
        (off + 1) ((v >>> 8) &&& 0xFF)).set
        (off + 2) ((v >>> 16) &&& 0xFF)).set
        (off + 3) ((v >>> 24) &&& 0xFF)⟩ := by
  by_cases hb : off + 3 < a.code.length
  · rw [patch32_ok hb] at h
    cases h
    exact ⟨hb, rfl⟩
  · exfalso
    rw [Assembler.patch32] at h
    by_cases h0 : off + 0 < a.code.length
    · rw [storeByte_lt h0] at h
      simp only [bind, Except.bind] at h
      by_cases h1 : off + 1 < a.code.length
      · rw [storeByte_lt (by simpa using h1)] at h
        simp only [bind, Except.bind] at h
        by_cases h2 : off + 2 < a.code.length
        · rw [storeByte_lt (by simpa using h2)] at h
          simp only [bind, Except.bind] at h
          rw [storeByte_ge (by simpa using hb)] at h
          simp only [bind, Except.bind, reduceCtorEq] at h
        · rw [storeByte_ge (by simpa using h2)] at h
          simp only [bind, Except.bind, reduceCtorEq] at h
      · rw [storeByte_ge (by simpa using h1)] at h
        simp only [bind, Except.bind, reduceCtorEq] at h
    · rw [storeByte_ge h0] at h
      simp only [bind, Except.bind, reduceCtorEq] at h

/-! ### Arithmetic facts about the bit operations the encoder uses -/

lemma and_FF (x : Nat) : x &&& 0xFF = x % 256 := by
  have h := Nat.and_pow_two_sub_one_eq_mod x 8
  norm_num at h
  exact h

lemma testBit_FFFFFFF0 (i : Nat) :
    Nat.testBit 0xFFFFFFF0 i = (decide (4 ≤ i) && decide (i < 32)) := by
  rcases Nat.lt_or_ge i 32 with h | h
  · interval_cases i <;> decide
  · have hz : Nat.testBit 0xFFFFFFF0 i = false :=
      Nat.testBit_eq_false_of_lt
        (lt_of_lt_of_le (by norm_num) (Nat.pow_le_pow_right (by norm_num) h))
    have hn : ¬ i < 32 := by omega
    simp [hz, hn]

/-- The stack-alignment mask: for a 32-bit value, `x & !15` clears the low
four bits, i.e. rounds down to a multiple of 16. -/
lemma and_FFFFFFF0 (x : Nat) (hx : x < 2 ^ 32) :
    x &&& 0xFFFFFFF0 = 16 * (x / 16) := by
  have hr : 16 * (x / 16) = (x >>> 4) <<< 4 := by
    rw [Nat.shiftRight_eq_div_pow, Nat.shiftLeft_eq]
    norm_num [Nat.mul_comm]
  rw [hr]
  apply Nat.eq_of_testBit_eq
  intro i
  rw [Nat.testBit_land, testBit_FFFFFFF0, Nat.testBit_shiftLeft, Nat.testBit_shiftRight]
  rcases Nat.lt_or_ge i 4 with h4 | h4
  · have hn4 : ¬ (4 : Nat) ≤ i := by omega
    simp [hn4]
  · have h44 : 4 + (i - 4) = i := by omega
    rcases Nat.lt_or_ge i 32 with h32 | h32
    · simp [h4, h44, h32]
    · have hxi : x.testBit i = false :=
        Nat.testBit_eq_false_of_lt
          (lt_of_lt_of_le hx (Nat.pow_le_pow_right (by norm_num) h32))
      have hn32 : ¬ i < 32 := by omega
      simp [h4, h44, hxi, hn32]

/-- Little-endian reconstruction: the four bytes `emit32`/`patch32` lay down
determine the 32-bit value. -/
lemma le32_value (v : Nat) (hv : v < 2 ^ 32) :
    v % 256 + 2 ^ 8 * (v / 2 ^ 8 % 256) + 2 ^ 16 * (v / 2 ^ 16 % 256) +
      2 ^ 24 * (v / 2 ^ 24 % 256) = v := by
  norm_num
  omega

/-! ### Shape lemmas for `enter` -/

lemma enter_zero (a : Assembler) :
    a.enter 0 = .ok ⟨a.code ++ [0x48, 0x55, 0x48, 0x89, 0xE5]⟩ := by
  simp [Assembler.enter, Assembler.push, Assembler.mov, bind, Except.bind,
    Registers.toRegisterId, rexFormulaSpec, pure, Except.pure]
  decide

lemma enter_pos {s : Nat} (a : Assembler) (h1 : 0 < s) (h2 : s ≤ 0xFFFFFFF0) :
    a.enter s = .ok ⟨a.code ++ [0x48, 0x55, 0x48, 0x89, 0xE5, 0x48, 0x81, 0xEC] ++
      le32 (16 * ((s + 15) / 16))⟩ := by
  have hs : (s + 15) % 4294967296 = s + 15 := Nat.mod_eq_of_lt (by omega)
  have hm : ((s + 15) % 4294967296) &&& 0xFFFFFFF0 = 16 * ((s + 15) / 16) := by
    rw [hs]
    exact and_FFFFFFF0 (s + 15) (by norm_num; omega)
  simp [Assembler.enter, Assembler.push, Assembler.mov, Assembler.sub, bind, Except.bind,
    Registers.toRegisterId, rexFormulaSpec, h1, hm]
  decide

lemma enter_shape (a : Assembler) (s : Nat) :
    a.enter s = .ok ⟨a.code ++ [0x48, 0x55, 0x48, 0x89, 0xE5] ++
      (if 0 < s then
        [0x48, 0x81, 0xEC] ++ le32 (((s + 15) % 4294967296) &&& 0xFFFFFFF0)
      else [])⟩ := by
  by_cases h1 : 0 < s
  · simp [Assembler.enter, Assembler.push, Assembler.mov, Assembler.sub, bind, Except.bind,
      Registers.toRegisterId, rexFormulaSpec, h1]
    decide
  · simp [Assembler.enter, Assembler.push, Assembler.mov, bind, Except.bind,
      Registers.toRegisterId, rexFormulaSpec, h1, pure, Except.pure]
    decide

lemma enter_extends {a a' : Assembler} {s : Nat} (h : a.enter s = .ok a') :
    Exts a a' := by
  rw [enter_shape] at h
  cases h
  exact ⟨_, List.append_assoc _ _ _⟩

lemma set_chain_frame (l : List Nat) (off b0 b1 b2 b3 : Nat) :
    ∀ i, i < off ∨ off + 4 ≤ i →
      ((((l.set (off + 0) b0).set (off + 1) b1).set (off + 2) b2).set
        (off + 3) b3)[i]? = l[i]? := by
  intro i hi
  rw [List.getElem?_set_ne (show off + 3 ≠ i by omega),
    List.getElem?_set_ne (show off + 2 ≠ i by omega),
    List.getElem?_set_ne (show off + 1 ≠ i by omega),
    List.getElem?_set_ne (show off + 0 ≠ i by omega)]

lemma set_chain_read (l : List Nat) (off b0 b1 b2 b3 : Nat) (h : off + 3 < l.length) :
    ((((l.set (off + 0) b0).set (off + 1) b1).set (off + 2) b2).set
        (off + 3) b3)[off]? = some b0 ∧
    ((((l.set (off + 0) b0).set (off + 1) b1).set (off + 2) b2).set
        (off + 3) b3)[off + 1]? = some b1 ∧
    ((((l.set (off + 0) b0).set (off + 1) b1).set (off + 2) b2).set
        (off + 3) b3)[off + 2]? = some b2 ∧
    ((((l.set (off + 0) b0).set (off + 1) b1).set (off + 2) b2).set
        (off + 3) b3)[off + 3]? = some b3 := by
  refine ⟨?_, ?_, ?_, ?_⟩
  · rw [List.getElem?_set_ne (show off + 3 ≠ off by omega),
      List.getElem?_set_ne (show off + 2 ≠ off by omega),
      List.getElem?_set_ne (show off + 1 ≠ off by omega)]
    have h0 : off < l.length := by omega
    simpa using List.getElem?_set_self h0 (a := b0)
  · rw [List.getElem?_set_ne (show off + 3 ≠ off + 1 by omega),
      List.getElem?_set_ne (show off + 2 ≠ off + 1 by omega)]
    have h1 : off + 1 < (l.set (off + 0) b0).length := by simpa using by omega
    exact List.getElem?_set_self h1
  · rw [List.getElem?_set_ne (show off + 3 ≠ off + 2 by omega)]
    have h2 : off + 2 < ((l.set (off + 0) b0).set (off + 1) b1).length := by
      simpa using by omega
    exact List.getElem?_set_self h2
  · have h3 : off + 3 <
        (((l.set (off + 0) b0).set (off + 1) b1).set (off + 2) b2).length := by
      simpa using h
    exact List.getElem?_set_self h3

lemma patch32_frame {st st' : Assembler} {v off : Nat}
    (h : st.patch32 v off = .ok st') :
    st'.code.length = st.code.length ∧
    ∀ i, i < off ∨ off + 4 ≤ i → st'.code[i]? = st.code[i]? := by
  obtain ⟨hb, rfl⟩ := patch32_ok_shape h
  exact ⟨by simp, set_chain_frame st.code off _ _ _ _⟩

/-! ### Claim theorems -/

/-- C9: for all register ids `a`, `b` with `a = b`, `mov` with
`Operand::Register(a)` as destination and `Operand::Register(b)` as source
returns with the buffer unchanged — zero bytes are appended. -/
theorem c9_mov_same_register_noop (st : Assembler) (r1 r2 : RegisterId)
    (h : r1 = r2) :
    st.mov (.register r1) (.register r2) = .ok st := by
  subst h
  exact mov_same st (.register r1)

/-- C9 witness at register id 3 on the empty assembler. -/
theorem c9_witness :
    Assembler.new.mov (.register 3) (.register 3) = .ok Assembler.new :=
  c9_mov_same_register_noop Assembler.new 3 3 rfl

/-- C10: for every operand `x` of any variant — including memory and
immediate operands — `mov x x` returns normally (no panic) and appends zero
bytes: the resulting state is exactly the input state. -/
theorem c10_mov_equal_operands_noop (st : Assembler) (x : Operand) :
    st.mov x x = .ok st :=
  mov_same st x

/-- C1 is refuted by the code: in the `mov reg, imm64` arm the opcode byte
is computed as `0xB8 | ((dst_reg & 0x7) << 3)`, which always collapses to
`0xB8` because bits 3–5 of `0xB8` are already set — the destination register
id is ignored, instead of being folded into the *low* 3 opcode bits as the
claim (and Intel's `B8+rd` encoding) requires.  At destination register 1
the code emits opcode byte `0xB8` where the claim demands `0xB9`. -/
theorem c1_mov_imm64_opcode_collapses :
    Assembler.new.mov (.register 1) (.imm64 0xBEEF) =
      .ok ⟨[0x48, 0xB8] ++ le64 0xBEEF⟩ ∧
    (0xB8 : Nat) ||| ((1 &&& 0x7) <<< 3) = 0xB8 ∧
    (0xB8 : Nat) ||| (1 &&& 0x7) = 0xB9 ∧
    (∀ d : Nat, 0xB8 ||| ((d &&& 0x7) <<< 3) = 0xB8) := by
  refine ⟨by decide, by decide, by decide, fun d => ?_⟩
  have h7 : d &&& 0x7 = d % 8 := by
    have h := Nat.and_pow_two_sub_one_eq_mod d 3
    norm_num at h
    exact h
  have h8 : d % 8 < 8 := Nat.mod_lt _ (by norm_num)
  rw [h7]
  set m := d % 8 with hm
  interval_cases m <;> decide

/-- C2 counterexample: the spec's golden vector (ModRM `0xC1` for the first
move and REX `0x49` for the second) is not what the code produces. -/
theorem c2_spec_vector_refuted :
    (Assembler.new.mov (Operand.registerOf .rax) (Operand.registerOf .rcx) >>= fun st =>
      st.mov (Operand.registerOf .rax) (Operand.registerOf .r8) >>= fun st =>
      st.add (Operand.registerOf .rax) (.imm32 0xBEEF)) ≠
    .ok ⟨[0x48, 0x89, 0xC1, 0x49, 0x89, 0xC0, 0x48, 0x81, 0xC0, 0xEF, 0xBE, 0x00, 0x00]⟩ := by
  decide

/-- C2 (amended): the call sequence `mov(rax, rcx); mov(rax, r8);
add(rax, 0xBEEF)` from an empty encoder produces REX 0x48, opcode 0x89,
ModRM `0xC8` for the first move; REX `0x4C`, opcode 0x89, ModRM 0xC0 for the
second; REX 0x48, opcode 0x81, ModRM 0xC0 and the little-endian imm32
`EF BE 00 00` for the add. -/
theorem c2_golden_vector :
    (Assembler.new.mov (Operand.registerOf .rax) (Operand.registerOf .rcx) >>= fun st =>
      st.mov (Operand.registerOf .rax) (Operand.registerOf .r8) >>= fun st =>
      st.add (Operand.registerOf .rax) (.imm32 0xBEEF)) =
    .ok ⟨[0x48, 0x89, 0xC8, 0x4C, 0x89, 0xC0, 0x48, 0x81, 0xC0, 0xEF, 0xBE, 0x00, 0x00]⟩ := by
  decide

/-- C4 counterexample: `mov` with two *equal* memory operands does not
abort — the `dst == src` early return fires first and the call succeeds,
appending nothing. -/
theorem c4_equal_memory_mov_no_abort :
    Assembler.new.mov (.memoryAndOffset 0 0) (.memoryAndOffset 0 0) =
      .ok Assembler.new := by
  decide

/-- C4 (amended): `mov` between two structurally *distinct* memory operands
panics; `mov` of any immediate into a memory destination panics; `push` and
`pop` of a memory operand panic; and in every one of these cases the panic
carries the entry state — no bytes were appended before the abort. -/
theorem c4_invalid_combinations_abort (st : Assembler) :
    (∀ b1 o1 b2 o2, Operand.memoryAndOffset b1 o1 ≠ Operand.memoryAndOffset b2 o2 →
      st.mov (.memoryAndOffset b1 o1) (.memoryAndOffset b2 o2) = .error st) ∧
    (∀ b o v, st.mov (.memoryAndOffset b o) (.imm64 v) = .error st) ∧
    (∀ b o v, st.mov (.memoryAndOffset b o) (.imm32 v) = .error st) ∧
    (∀ b o v, st.mov (.memoryAndOffset b o) (.imm8 v) = .error st) ∧
    (∀ b o, st.push (.memoryAndOffset b o) = .error st) ∧
    (∀ b o, st.pop (.memoryAndOffset b o) = .error st) := by
  refine ⟨fun b1 o1 b2 o2 hne => ?_, fun b o v => ?_, fun b o v => ?_, fun b o v => ?_,
    fun b o => ?_, fun b o => ?_⟩
  · simp [Assembler.mov, if_neg hne]
    exact fun hb ho => hne (by rw [hb, ho])
  · simp [Assembler.mov]
  · simp [Assembler.mov]
  · simp [Assembler.mov]
  · simp [Assembler.push]
  · simp [Assembler.pop]

/-- C4 witness: distinct memory operands on the empty assembler abort with
nothing emitted. -/
theorem c4_witness :
    Assembler.new.mov (.memoryAndOffset 0 0) (.memoryAndOffset 1 0) =
      .error Assembler.new :=
  (c4_invalid_combinations_abort Assembler.new).1 0 0 1 0 (by decide)

/-- C3: the REX byte emitted by the routine is
`0x48 | (0x4 if r2 ≥ 8 else 0) | (0x1 if r1 ≥ 8 else 0)` with `r1` in the
r/m role and `r2` in the reg role; the register-to-register forms of
mov/add/sub pass the destination in the r/m role and the source in the reg
role, and the register-from-memory forms pass the memory base in the r/m
role and the destination in the reg role — in each case the REX byte is the
first byte the instruction appends. -/
theorem c3_rex_byte_and_roles :
    (∀ (st : Assembler) (r1 r2 : RegisterId),
        st.emitRex r1 r2 = ⟨st.code ++ [rexFormulaSpec r1 r2]⟩) ∧
    (∀ (st : Assembler) (d s : RegisterId), d ≠ s →
        ∃ rest, st.mov (.register d) (.register s) =
          .ok ⟨st.code ++ rexFormulaSpec d s :: rest⟩) ∧
    (∀ (st : Assembler) (d b off : Nat),
        ∃ rest, st.mov (.register d) (.memoryAndOffset b off) =
          .ok ⟨st.code ++ rexFormulaSpec b d :: rest⟩) ∧
    (∀ (st : Assembler) (d s : RegisterId),
        ∃ rest, st.add (.register d) (.register s) =
          .ok ⟨st.code ++ rexFormulaSpec d s :: rest⟩) ∧
    (∀ (st : Assembler) (d b off : Nat),
        ∃ rest, st.add (.register d) (.memoryAndOffset b off) =
          .ok ⟨st.code ++ rexFormulaSpec b d :: rest⟩) ∧
    (∀ (st : Assembler) (d s : RegisterId),
        ∃ rest, st.sub (.register d) (.register s) =
          .ok ⟨st.code ++ rexFormulaSpec d s :: rest⟩) ∧
    (∀ (st : Assembler) (d b off : Nat),
        ∃ rest, st.sub (.register d) (.memoryAndOffset b off) =
          .ok ⟨st.code ++ rexFormulaSpec b d :: rest⟩) := by
  refine ⟨fun st r1 r2 => rfl,
    fun st d s hne => ⟨_, mov_rr hne⟩,
    fun st d b off =>
      ⟨[0x8B, 0x80 ||| ((d &&& 0x7) <<< 3) ||| (b &&& 0x7)] ++ le32 off,
        by rw [mov_rm]; simp⟩,
    fun st d s => ⟨_, add_rr st d s⟩,
    fun st d b off =>
      ⟨[0x03, 0x80 ||| ((d &&& 0x7) <<< 3) ||| (b &&& 0x7)] ++ le32 off,
        by rw [add_rm]; simp⟩,
    fun st d s => ⟨_, sub_rr st d s⟩,
    fun st d b off =>
      ⟨[0x2B, 0x80 ||| ((d &&& 0x7) <<< 3) ||| (b &&& 0x7)] ++ le32 off,
        by rw [sub_rm]; simp⟩⟩

/-- C3 witness: `mov(rax, r9)` on the empty assembler opens with REX byte
`0x4C = rexFormulaSpec 0 9`. -/
theorem c3_witness :
    ∃ rest, Assembler.new.mov (.register 0) (.register 9) =
      .ok ⟨Assembler.new.code ++ rexFormulaSpec 0 9 :: rest⟩ :=
  c3_rex_byte_and_roles.2.1 Assembler.new 0 9 (by decide)

/-- C7: `jump_near` with an 8-bit immediate appends opcode 0xEB and one
placeholder byte and returns the offset of that byte (the buffer length
just after the opcode); with a 32-bit immediate it appends opcode 0xE9 and
the 4 placeholder bytes little-endian and returns the offset of the first
of them; every other operand kind panics with nothing appended. -/
theorem c7_jump_near_encoding (st : Assembler) :
    (∀ i, st.jump_near (.imm8 i) =
        .ok (⟨st.code ++ [0xEB, i]⟩, st.code.length + 1)) ∧
    (∀ i, st.jump_near (.imm32 i) =
        .ok (⟨st.code ++ 0xE9 :: le32 i⟩, st.code.length + 1)) ∧
    (∀ r, st.jump_near (.register r) = .error st) ∧
    (∀ b o, st.jump_near (.memoryAndOffset b o) = .error st) ∧
    (∀ v, st.jump_near (.imm64 v) = .error st) := by
  refine ⟨fun i => ?_, fun i => ?_, fun r => rfl, fun b o => rfl, fun v => rfl⟩
  · simp [Assembler.jump_near]
  · simp [Assembler.jump_near]

/-- C6: patching 4 bytes that lie inside the buffer succeeds, keeps the
length, makes the 4 bytes at `offset .. offset+3` the little-endian digits
of `value` (which reconstruct `value`), and changes no other byte; an
offset outside the buffer's bounds panics with the buffer untouched. -/
theorem c6_patch32_roundtrip (st : Assembler) (v off : Nat) (hv : v < 2 ^ 32) :
    (off + 3 < st.code.length →
      ∃ st', st.patch32 v off = .ok st' ∧
        st'.code.length = st.code.length ∧
        st'.code[off]? = some (v % 256) ∧
        st'.code[off + 1]? = some (v / 2 ^ 8 % 256) ∧
        st'.code[off + 2]? = some (v / 2 ^ 16 % 256) ∧
        st'.code[off + 3]? = some (v / 2 ^ 24 % 256) ∧
        v % 256 + 2 ^ 8 * (v / 2 ^ 8 % 256) + 2 ^ 16 * (v / 2 ^ 16 % 256) +
          2 ^ 24 * (v / 2 ^ 24 % 256) = v ∧
        (∀ i, i < off ∨ off + 4 ≤ i → st'.code[i]? = st.code[i]?)) ∧
    (st.code.length ≤ off → st.patch32 v off = .error st) := by
  constructor
  · intro hb
    have hbytes := set_chain_read st.code off ((v >>> 0) &&& 0xFF) ((v >>> 8) &&& 0xFF)
      ((v >>> 16) &&& 0xFF) ((v >>> 24) &&& 0xFF) hb
    refine ⟨_, patch32_ok hb v, by simp, ?_, ?_, ?_, ?_, le32_value v hv,
      set_chain_frame st.code off _ _ _ _⟩
    · simpa [and_FF, Nat.shiftRight_eq_div_pow] using hbytes.1
    · simpa [and_FF, Nat.shiftRight_eq_div_pow] using hbytes.2.1
    · simpa [and_FF, Nat.shiftRight_eq_div_pow] using hbytes.2.2.1
    · simpa [and_FF, Nat.shiftRight_eq_div_pow] using hbytes.2.2.2
  · intro hge
    exact patch32_oob hge v

/-- C6 witness: patching `0xDEADBEEF` at offset 1 of a 5-byte buffer writes
`EF BE AD DE` there and leaves byte 0 alone; patching at offset 5 of a
2-byte buffer aborts with the buffer unchanged. -/
theorem c6_witness :
    (∃ st', (⟨[0, 0, 0, 0, 0]⟩ : Assembler).patch32 0xDEADBEEF 1 = .ok st' ∧
      st'.code[1]? = some 0xEF ∧ st'.code[4]? = some 0xDE ∧
      st'.code[0]? = some 0) ∧
    (⟨[0, 0]⟩ : Assembler).patch32 0xDEADBEEF 5 = .error ⟨[0, 0]⟩ := by
  constructor
  · obtain ⟨st', h1, h2, h3, h4, h5, h6, h7, h8⟩ :=
      (c6_patch32_roundtrip ⟨[0, 0, 0, 0, 0]⟩ 0xDEADBEEF 1 (by norm_num)).1
        (by norm_num)
    refine ⟨st', h1, by simpa using h3, by simpa using h6, ?_⟩
    have := h8 0 (by omega)
    simpa using this
  · exact (c6_patch32_roundtrip ⟨[0, 0]⟩ 0xDEADBEEF 5 (by norm_num)).2 (by norm_num)

/-- C8 counterexample: at `stack_size = 0xFFFFFFF1` the `u32` computation
`(stack_size + 15) & !15` wraps around and `enter` emits the immediate 0,
while rounding up to the next multiple of 16 would give `0x100000000`, a
value no 32-bit immediate can hold. -/
theorem c8_wraparound_refuted :
    Assembler.new.enter 0xFFFFFFF1 =
      .ok ⟨[0x48, 0x55, 0x48, 0x89, 0xE5, 0x48, 0x81, 0xEC] ++ le32 0⟩ ∧
    16 * ((0xFFFFFFF1 + 15) / 16) ≠ 0 ∧
    (2 ^ 32 : Nat) ≤ 16 * ((0xFFFFFFF1 + 15) / 16) := by
  refine ⟨by decide, by decide, by decide⟩

/-- C8 (amended): `enter(0)` emits exactly push(rbp) then mov(rbp, rsp);
for `0 < stack_size ≤ 0xFFFFFFF0` it additionally emits one
`sub rsp, imm32` whose immediate is `stack_size` rounded up to the next
multiple of 16 (for larger `stack_size` the `u32` alignment computation
wraps and the immediate is the rounded value reduced modulo `2^32`). -/
theorem c8_enter_encoding (st : Assembler) (s : Nat) :
    st.enter 0 = .ok ⟨st.code ++ [0x48, 0x55, 0x48, 0x89, 0xE5]⟩ ∧
    (0 < s → s ≤ 0xFFFFFFF0 →
      st.enter s = .ok ⟨st.code ++ [0x48, 0x55, 0x48, 0x89, 0xE5, 0x48, 0x81, 0xEC] ++
        le32 (16 * ((s + 15) / 16))⟩ ∧
      s ≤ 16 * ((s + 15) / 16) ∧
      16 * ((s + 15) / 16) < s + 16 ∧
      16 * ((s + 15) / 16) % 16 = 0) := by
  refine ⟨enter_zero st, fun h1 h2 => ⟨enter_pos st h1 h2, by omega, by omega, by omega⟩⟩

/-- C8 witness: `enter(20)` reserves 32 bytes (20 rounded up to the next
multiple of 16). -/
theorem c8_witness :
    Assembler.new.enter 20 =
      .ok ⟨[0x48, 0x55, 0x48, 0x89, 0xE5, 0x48, 0x81, 0xEC, 32, 0, 0, 0]⟩ ∧
    (20 : Nat) ≤ 32 ∧ (32 : Nat) < 36 ∧ (32 : Nat) % 16 = 0 := by
  have h := (c8_enter_encoding Assembler.new 20).2 (by norm_num) (by norm_num)
  simpa [Assembler.new, le32] using h

/-- C5: every public encoding call that returns normally appends bytes at
the end of the buffer (never shrinking it, never changing an existing
byte) — except `patch32`, which keeps the length and changes no byte
outside `offset .. offset+3` — so byte offsets captured earlier still
designate the same positions. -/
theorem c5_offsets_stable (st st' : Assembler) (op : Op) (r : Option Nat)
    (h : st.runOp op = .ok (st', r)) :
    (match op with
     | .patch32 _ off =>
         st'.code.length = st.code.length ∧
         ∀ i, i < off ∨ off + 4 ≤ i → st'.code[i]? = st.code[i]?
     | _ => ∃ t, st'.code = st.code ++ t) := by
  cases op with
  | mov d s =>
      simp only [Assembler.runOp] at h
      cases hm : st.mov d s with
      | error e => rw [hm] at h; simp [Except.map] at h
      | ok a1 =>
          rw [hm] at h
          simp only [Except.map, Except.ok.injEq, Prod.mk.injEq] at h
          obtain ⟨h1, -⟩ := h
          subst h1
          exact mov_extends hm
  | add d s =>
      simp only [Assembler.runOp] at h
      cases hm : st.add d s with
      | error e => rw [hm] at h; simp [Except.map] at h
      | ok a1 =>
          rw [hm] at h
          simp only [Except.map, Except.ok.injEq, Prod.mk.injEq] at h
          obtain ⟨h1, -⟩ := h
          subst h1
          exact add_extends hm
  | sub d s =>
      simp only [Assembler.runOp] at h
      cases hm : st.sub d s with
      | error e => rw [hm] at h; simp [Except.map] at h
      | ok a1 =>
          rw [hm] at h
          simp only [Except.map, Except.ok.injEq, Prod.mk.injEq] at h
          obtain ⟨h1, -⟩ := h
          subst h1
          exact sub_extends hm
  | jump_near d =>
      simp only [Assembler.runOp] at h
      cases hm : st.jump_near d with
      | error e => rw [hm] at h; simp [Except.map] at h
      | ok p =>
          obtain ⟨a1, pos⟩ := p
          rw [hm] at h
          simp only [Except.map, Except.ok.injEq, Prod.mk.injEq] at h
          obtain ⟨h1, -⟩ := h
          subst h1
          exact jump_near_extends hm
  | enter s =>
      simp only [Assembler.runOp] at h
      cases hm : st.enter s with
      | error e => rw [hm] at h; simp [Except.map] at h
      | ok a1 =>
          rw [hm] at h
          simp only [Except.map, Except.ok.injEq, Prod.mk.injEq] at h
          obtain ⟨h1, -⟩ := h
          subst h1
          exact enter_extends hm
  | leave =>
      simp only [Assembler.runOp, Except.ok.injEq, Prod.mk.injEq] at h
      obtain ⟨h1, -⟩ := h
      subst h1
      exact ⟨[0xC9], rfl⟩
  | patch32 v off =>
      simp only [Assembler.runOp] at h
      cases hm : st.patch32 v off with
      | error e => rw [hm] at h; simp [Except.map] at h
      | ok a1 =>
          rw [hm] at h
          simp only [Except.map, Except.ok.injEq, Prod.mk.injEq] at h
          obtain ⟨h1, -⟩ := h
          subst h1
          exact patch32_frame hm
  | ret =>
      simp only [Assembler.runOp, Except.ok.injEq, Prod.mk.injEq] at h
      obtain ⟨h1, -⟩ := h
      subst h1
      exact ⟨[0xC3], rfl⟩
  | push s =>
      simp only [Assembler.runOp] at h
      cases hm : st.push s with
      | error e => rw [hm] at h; simp [Except.map] at h
      | ok a1 =>
          rw [hm] at h
          simp only [Except.map, Except.ok.injEq, Prod.mk.injEq] at h
          obtain ⟨h1, -⟩ := h
          subst h1
          exact push_extends hm
  | pop d =>
      simp only [Assembler.runOp] at h
      cases hm : st.pop d with
      | error e => rw [hm] at h; simp [Except.map] at h
      | ok a1 =>
          rw [hm] at h
          simp only [Except.map, Except.ok.injEq, Prod.mk.injEq] at h
          obtain ⟨h1, -⟩ := h
          subst h1
          exact pop_extends hm

/-- C5 witness: a `ret` on a one-byte buffer appends `0xC3`, and a
`patch32` keeps length and untouched bytes. -/
theorem c5_witness :
    (∃ t, ([0x90, 0xC3] : List Nat) = [0x90] ++ t) ∧
    ((5 : Nat) = 5 ∧
      ∀ i, i < 0 ∨ 0 + 4 ≤ i →
        ([0xEF, 0xBE, 0xAD, 0xDE, 0x90] : List Nat)[i]? =
          ([0, 0, 0, 0, 0x90] : List Nat)[i]?) := by
  constructor
  · exact c5_offsets_stable ⟨[0x90]⟩ ⟨[0x90, 0xC3]⟩ .ret none (by decide)
  · exact c5_offsets_stable ⟨[0, 0, 0, 0, 0x90]⟩ ⟨[0xEF, 0xBE, 0xAD, 0xDE, 0x90]⟩
      (.patch32 0xDEADBEEF 0) none (by decide)

end Lyth
